import Mathlib

/-
Verification of the Spotify-AI-Assistant repository: a shallow embedding of
src/server.py (OpenAPI-to-tool compilation and the generated tool functions)
and src/client.py (the bounded tool-calling agent loop), with theorems
settling the behavioural claims about them.
-/

set_option linter.unusedVariables false

/-- JSON values, as produced by the Python json module used throughout the
repository (numbers restricted to integers, which covers every value the
claims exercise). Arrays and objects are cons-encoded so that every
definition over them is plainly structural. -/
inductive JVal where
  | null : JVal
  | bool : Bool → JVal
  | num : Int → JVal
  | str : String → JVal
  | arrNil : JVal
  | arrCons : JVal → JVal → JVal
  | objNil : JVal
  | objCons : String → JVal → JVal → JVal
deriving Repr, DecidableEq

/-- Build a JSON array value from a list of values. -/
def JVal.arr : List JVal → JVal
  | [] => .arrNil
  | v :: vs => .arrCons v (JVal.arr vs)

/-- Build a JSON object value from a list of key-value fields. -/
def JVal.obj : List (String × JVal) → JVal
  | [] => .objNil
  | (k, v) :: fs => .objCons k v (JVal.obj fs)

/-- Serializer worker: the flag selects between rendering a complete value
and rendering the remaining items of a container, where each further item
is preceded by the default separator of Python json.dumps. -/
def jdumpAux : JVal → Bool → String
  | .null, _ => "null"
  | .bool true, _ => "true"
  | .bool false, _ => "false"
  | .num n, _ => toString n
  | .str s, _ => "\"" ++ s ++ "\""
  | .arrNil, false => "[]"
  | .arrNil, true => ""
  | .arrCons v rest, false => "[" ++ jdumpAux v false ++ jdumpAux rest true ++ "]"
  | .arrCons v rest, true => ", " ++ jdumpAux v false ++ jdumpAux rest true
  | .objNil, false => "\x7b\x7d"
  | .objNil, true => ""
  | .objCons k v rest, false =>
      "\x7b" ++ "\"" ++ k ++ "\": " ++ jdumpAux v false ++ jdumpAux rest true ++ "\x7d"
  | .objCons k v rest, true =>
      ", " ++ "\"" ++ k ++ "\": " ++ jdumpAux v false ++ jdumpAux rest true

/-- Model of Python json.dumps with its default separators, as called by
run_agent in src/client.py line 97. -/
def jsonDumps (v : JVal) : String := jdumpAux v false

/-- Whitespace skipping of the JSON grammar. -/
def jskipWs (cs : List Char) : List Char :=
  cs.dropWhile (fun c => c == ' ' || c == '\t' || c == '\n' || c == '\r')

/-- JSON escape sequences handled by the string scanner, as a lookup
table from escape letter to denoted character. -/
def jesc (c : Char) : Option Char :=
  List.lookup c
    [('"', '"'), ('\\', '\\'), ('/', '/'), ('n', '\x0a'), ('t', '\x09'), ('r', '\x0d')]

/-- Scan a JSON string body after the opening quote; returns the decoded
string and the remaining input. -/
def jstrBody : List Char → Option (String × List Char)
  | [] => none
  | '"' :: rest => some ("", rest)
  | '\\' :: e :: rest =>
    match jesc e with
    | some c => (jstrBody rest).map (fun p => (c.toString ++ p.1, p.2))
    | none => none
  | c :: rest => (jstrBody rest).map (fun p => (c.toString ++ p.1, p.2))

/-- Parse a JSON integer literal. -/
def jnumParse (cs : List Char) : Except String (JVal × List Char) :=
  let neg : Bool := match cs with | '-' :: _ => true | _ => false
  let cs1 : List Char := match cs with | '-' :: t => t | _ => cs
  let ds := cs1.takeWhile Char.isDigit
  let rest := cs1.dropWhile Char.isDigit
  if ds.isEmpty then .error "Expecting value"
  else
    match rest with
    | '.' :: _ => .error "non-integer numbers not modelled"
    | 'e' :: _ => .error "non-integer numbers not modelled"
    | 'E' :: _ => .error "non-integer numbers not modelled"
    | _ =>
      let n : Nat := ds.foldl (fun acc c => acc * 10 + (c.toNat - 48)) 0
      .ok (.num (if neg then -(n : Int) else (n : Int)), rest)

/-- Parse the items of a JSON array after the first item position, given the
value parser; fuel bounds the number of items. -/
def jitems (pv : List Char → Except String (JVal × List Char)) :
    Nat → List Char → Except String (List JVal × List Char)
  | 0, _ => .error "too deep"
  | fuel + 1, cs =>
    match pv cs with
    | .error e => .error e
    | .ok (v, r) =>
      match jskipWs r with
      | ',' :: r2 =>
        match jitems pv fuel r2 with
        | .error e => .error e
        | .ok (vs, r3) => .ok (v :: vs, r3)
      | ']' :: r2 => .ok ([v], r2)
      | _ => .error "Expecting delimiter"

/-- Parse the members of a JSON object after the first key position, given the
value parser; fuel bounds the number of members. -/
def jmembers (pv : List Char → Except String (JVal × List Char)) :
    Nat → List Char → Except String (List (String × JVal) × List Char)
  | 0, _ => .error "too deep"
  | fuel + 1, cs =>
    match jskipWs cs with
    | '"' :: rest =>
      match jstrBody rest with
      | none => .error "Unterminated string"
      | some (k, r) =>
        match jskipWs r with
        | ':' :: r2 =>
          match pv r2 with
          | .error e => .error e
          | .ok (v, r3) =>
            match jskipWs r3 with
            | ',' :: r4 =>
              match jmembers pv fuel r4 with
              | .error e => .error e
              | .ok (fs, r5) => .ok ((k, v) :: fs, r5)
            | '\x7d' :: r4 => .ok ([(k, v)], r4)
            | _ => .error "Expecting delimiter"
        | _ => .error "Expecting colon"
    | _ => .error "Expecting property name"

/-- Recursive JSON value parser; fuel bounds nesting depth and item count. -/
def jparse : Nat → List Char → Except String (JVal × List Char)
  | 0, _ => .error "too deep"
  | fuel + 1, cs0 =>
    match jskipWs cs0 with
    | [] => .error "Expecting value"
    | '"' :: rest =>
      match jstrBody rest with
      | some (s, r) => .ok (.str s, r)
      | none => .error "Unterminated string"
    | 't' :: 'r' :: 'u' :: 'e' :: rest => .ok (.bool true, rest)
    | 'f' :: 'a' :: 'l' :: 's' :: 'e' :: rest => .ok (.bool false, rest)
    | 'n' :: 'u' :: 'l' :: 'l' :: rest => .ok (.null, rest)
    | '[' :: rest =>
      (match jskipWs rest with
       | ']' :: r2 => .ok (.arr [], r2)
       | r1 =>
         match jitems (jparse fuel) fuel r1 with
         | .error e => .error e
         | .ok (vs, r) => .ok (.arr vs, r))
    | '\x7b' :: rest =>
      (match jskipWs rest with
       | '\x7d' :: r2 => .ok (.obj [], r2)
       | r1 =>
         match jmembers (jparse fuel) fuel r1 with
         | .error e => .error e
         | .ok (fs, r) => .ok (.obj fs, r))
    | cs => jnumParse cs

/-- Model of Python json.loads, as called by run_agent in src/client.py
line 82: parse one JSON document and reject trailing garbage. -/
def jsonLoads (s : String) : Except String JVal :=
  match jparse (s.length + 4) s.data with
  | .error e => .error e
  | .ok (v, r) => if (jskipWs r).isEmpty then .ok v else .error "Extra data"

/-- The uniform result envelope returned by every generated tool function in
src/server.py: a dict with keys isError and content. -/
structure ToolResult where
  isError : Bool
  content : JVal
deriving Repr, DecidableEq

/-- The success envelope returned at src/server.py line 92 for 201/204/empty
responses. -/
def successMarker : ToolResult :=
  ⟨false, .arr [.str "Sucessfully executed"]⟩

/-- The error envelope built at src/server.py lines 104-109. -/
def errEnvelope (t : String) : ToolResult :=
  ⟨true, .arr [.obj [("type", .str "text"), ("text", .str t)]]⟩

/-- An HTTP response as exposed by the requests session: status code, raw
body text, the reason phrase and url that raise_for_status works into its
error message, and the outcome of decoding the body as JSON (error when the
body is not valid JSON, in which case resp.json() raises an exception
that carries no response attribute). -/
structure HResp where
  status : Nat
  text : String
  reason : String
  url : String
  jsonVal : Except String JVal
deriving Repr

/-- Outcome of the oauth.request call inside a generated tool function:
either a response came back (of any status), or the request itself raised,
optionally carrying a response object (requests attaches one to HTTP errors
but not to network-level failures). -/
inductive CallOutcome where
  | ok : HResp → CallOutcome
  | exn : Option HResp → String → CallOutcome

/-- Whether resp.raise_for_status() raises: requests raises for client and
server error statuses, 400 to 599. -/
def raisesForStatus (status : Nat) : Bool :=
  400 ≤ status && status < 600

/-- Truthiness of a requests response object: its bool conversion returns
its ok property, which is false exactly when raise_for_status would raise,
so every 4xx and 5xx response is falsy. -/
def responseTruthy (r : HResp) : Bool :=
  !(raisesForStatus r.status)

/-- The message of the HTTPError that resp.raise_for_status() raises, which
str(e) renders in the generated handler: the status, a client or server
error tag, the reason phrase and the url. -/
def httpErrorMsg (r : HResp) : String :=
  if r.status < 500 then
    toString r.status ++ " Client Error: " ++ r.reason ++ " for url: " ++ r.url
  else
    toString r.status ++ " Server Error: " ++ r.reason ++ " for url: " ++ r.url

/-- The diagnostic text computed at src/server.py lines 101-103: status is
the and-chain over the attached response object and its status code, so it
is truthy only when the exception carries a truthy (non-4xx/5xx) response
with a nonzero status code; only then is the text HTTP status colon body,
and otherwise it is the exception's own string form. -/
def errorText (respOpt : Option HResp) (fallback : String) : String :=
  match respOpt with
  | some r =>
    if responseTruthy r && r.status != 0 then
      "HTTP " ++ toString r.status ++ ": " ++ r.text
    else fallback
  | none => fallback

/-- The body of every generated tool function (src/server.py lines 80-109)
applied to the outcome of its HTTP request: raise_for_status inside the try
turns 4xx/5xx responses into caught HTTPError exceptions carrying the (then
falsy) response, whose str(e) is the raise_for_status message;
201/204/empty-body responses return the literal success envelope; other
non-raising responses return the JSON-decoded body (a decode failure is an
exception without a response, caught by the same handler); every exception
is converted to the error envelope. -/
def invoke (outcome : CallOutcome) : ToolResult :=
  match outcome with
  | .exn respOpt msg => errEnvelope (errorText respOpt msg)
  | .ok r =>
    if raisesForStatus r.status then
      errEnvelope (errorText (some r) (httpErrorMsg r))
    else if r.status = 201 ∨ r.status = 204 ∨ r.text = "" then
      successMarker
    else
      match r.jsonVal with
      | .ok j => ⟨false, j⟩
      | .error m => errEnvelope (errorText none m)

/-- Character class of the regex in sanitize_name (src/server.py line 48):
ASCII letters, digits and underscore survive; everything else is replaced. -/
def isWordChar (c : Char) : Bool := c.isAlphanum || c == '_'

/-- Model of re.sub applied with the single-character class of
src/server.py line 48: a characterwise map over the string. -/
def reSubNonWord (name : String) : String :=
  String.mk (name.data.map (fun c => if isWordChar c then c else '_'))

/-- Whether re.match of a leading-digit pattern succeeds on the string
(src/server.py line 50): its first character is a digit. -/
def leadingDigit (s : String) : Bool :=
  match s.data with
  | c :: _ => c.isDigit
  | [] => false

/-- sanitize_name from src/server.py lines 46-52: replace every character
outside the word class with an underscore, then prefix op_ when the result
starts with a digit. -/
def sanitize_name (name : String) : String :=
  let sanitized := reSubNonWord name
  if leadingDigit sanitized then "op_" ++ sanitized else sanitized

/-- Model of Python str.strip with a single strip character: drop every copy
of it from both ends. -/
def pyStrip (stripC : Char) (s : String) : String :=
  String.mk (((s.data.dropWhile (fun c => c == stripC)).reverse.dropWhile
    (fun c => c == stripC)).reverse)

/-- Model of Python str.replace for a single-character pattern, the form
used at src/server.py line 130: substitute every occurrence of the old
character with the new one. -/
def pyReplaceChar (old new : Char) (s : String) : String :=
  String.mk (s.data.map (fun c => if c == old then new else c))

/-- Model of Python str.lower on the ASCII method keys compared at
src/server.py line 127. -/
def pyLower (s : String) : String :=
  String.mk (s.data.map Char.toLower)

/-- The raw tool name computed at src/server.py line 130: the operationId
when it is present and non-empty (Python or treats the empty string as
falsy), otherwise the method as written, an underscore, and the path with
leading and trailing slashes stripped and the remaining slashes replaced by
underscores. -/
def rawName (opId : Option String) (method path : String) : String :=
  let synth := method ++ "_" ++ pyReplaceChar '/' '_' (pyStrip '/' path)
  match opId with
  | some oid => if oid = "" then synth else oid
  | none => synth

/-- Evaluation of a Python f-string template at call time, restricted to the
plain placeholder forms that occur in OpenAPI path templates: a brace pair
names a variable that is looked up in the environment of the generated
function's arguments; a missing variable is a NameError (no result). Fuel
bounds the number of scanning steps. -/
def fstringChars (env : List (String × String)) : Nat → List Char → Option (List Char)
  | _, [] => some []
  | 0, _ => none
  | fuel + 1, c :: rest =>
    if c = '\x7b' then
      (match rest.dropWhile (fun x => x != '\x7d') with
       | '\x7d' :: rest2 =>
         match env.lookup (String.mk (rest.takeWhile (fun x => x != '\x7d'))) with
         | some v => (fstringChars env fuel rest2).map (fun t => v.data ++ t)
         | none => none
       | _ => none)
    else (fstringChars env fuel rest).map (fun t => c :: t)

/-- The URL computed when a generated tool function runs: src/server.py
line 79 emits the statement assigning url the f-string whose text is the
base URL followed by the path template, so the braces of the template are
placeholder expressions evaluated against the function's path-parameter
arguments when the tool is called. -/
def compiledUrl (env : List (String × String)) (base_url path : String) : Option String :=
  (fstringChars env ((base_url ++ path).length + 1) (base_url ++ path).data).map String.mk

/-- Decomposition of an OpenAPI path template into literal character runs
and named brace placeholders, used to quantify over every compiled
operation in the substitution theorem. -/
inductive TmplPiece where
  | lit : List Char → TmplPiece
  | param : String → TmplPiece

/-- The template text denoted by a decomposition: literal runs as they are,
each placeholder as its name between braces. -/
def tmplChars : List TmplPiece → List Char
  | [] => []
  | .lit l :: ps => l ++ tmplChars ps
  | .param nm :: ps => '\x7b' :: (nm.data ++ '\x7d' :: tmplChars ps)

/-- Substitution of a template under an argument environment: every
placeholder is replaced by the value bound to its name; a name the
environment does not bind has no result. -/
def tmplSubst (env : List (String × String)) : List TmplPiece → Option (List Char)
  | [] => some []
  | .lit l :: ps => (tmplSubst env ps).map (fun t => l ++ t)
  | .param nm :: ps =>
    match env.lookup nm with
    | some v => (tmplSubst env ps).map (fun t => v.data ++ t)
    | none => none

/-- Well-formedness of a decomposition: literal runs hold no opening brace
and placeholder names hold no closing brace, the shapes that occur in
OpenAPI path templates. -/
def tmplWF : List TmplPiece → Bool
  | [] => true
  | .lit l :: ps => l.all (fun c => c != '\x7b') && tmplWF ps
  | .param nm :: ps => nm.data.all (fun c => c != '\x7d') && tmplWF ps

/-- The number of scanning steps the f-string evaluator spends on a
template: one per literal character and one per placeholder. -/
def tmplFuel : List TmplPiece → Nat
  | [] => 0
  | .lit l :: ps => l.length + tmplFuel ps
  | .param _ :: ps => tmplFuel ps + 1

/-- The HTTP methods accepted by the registration loop (src/server.py
line 122). -/
def HTTP_METHODS : List String :=
  ["get", "put", "post", "delete", "options", "head", "patch", "trace"]

/-- One operation as seen by the registration loop: its optional
operationId, the method key and the path key it sits under. -/
structure OpEntry where
  opId : Option String
  method : String
  path : String
deriving Repr, DecidableEq

/-- Modelled from the spec: FastMCP's add_tool is not under src/; the spec
records that on a name collision the source behaviour silently overwrites
the earlier registration. Registering a name that is already present
replaces that entry. -/
def add_tool (reg : List (String × OpEntry)) (nm : String) (op : OpEntry) :
    List (String × OpEntry) :=
  (reg.filter (fun p => p.1 ≠ nm)) ++ [(nm, op)]

/-- The module-level registration loop of src/server.py lines 125-142:
every operation under an allowed HTTP method key is registered under its
sanitized tool name, with no collision check of its own. -/
def registerAll (ops : List OpEntry) : List (String × OpEntry) :=
  ops.foldl
    (fun reg op =>
      if HTTP_METHODS.contains (pyLower op.method) then
        add_tool reg (sanitize_name (rawName op.opId op.method op.path)) op
      else reg)
    []

/-- One entry of the agent's conversation memory (src/client.py): a role,
the optional name attached to function-call records, and the content. -/
structure Turn where
  role : String
  name : Option String
  content : JVal
deriving Repr, DecidableEq

/-- The system prompt appended by connect (src/client.py lines 53-59). -/
def systemPrompt : String :=
  "You are a reasoning agent with access to Spotify tools. " ++
  "When needing Spotify actions (searching tracks, controlling playback, managing playlists), decide and call the correct function. " ++
  "Use a ReAct-style loop: think, act, observe, repeat until you have a final answer." ++
  "The output generated should be easily read by an AI voice assistant. Do not include URLs or emojis in the output."

/-- The memory append performed by connect (src/client.py line 59). -/
def connectMemory (mem : List Turn) : List Turn :=
  mem ++ [⟨"system", none, .str systemPrompt⟩]

/-- A chat-completion response message as consumed by run_agent: the list of
requested tool calls, each a function name with its optional JSON-encoded
arguments string, and the optional plain content. -/
structure ModelMsg where
  tool_calls : List (String × Option String)
  content : Option String
deriving Repr, DecidableEq

/-- The argument string handed to json.loads at src/client.py line 82:
Python evaluates call.arguments or a literal empty-object document, so an
absent or empty arguments string becomes the empty JSON object. -/
def argSource (a : Option String) : String :=
  match a with
  | some s => if s = "" then "\x7b\x7d" else s
  | none => "\x7b\x7d"

/-- The fixed apology returned when the iteration budget is exhausted
(src/client.py line 114). -/
def apology : String := "I\x27m sorry, I couldn\x27t complete the request."

/-- The for-loop of run_agent (src/client.py lines 68-114), one level per
remaining iteration. The model is a function from the current memory to a
response message; callTool is the session tool dispatcher, returning either
the result content or a raised exception. Returns the outcome (a final
answer, or an exception propagating out of run_agent), the memory after the
call, the number of model queries made and the number of tool dispatches
made. -/
def runAgentLoop (model : List Turn → ModelMsg)
    (callTool : String → JVal → Except String JVal) :
    Nat → List Turn → Nat → Nat →
    Except String String × List Turn × Nat × Nat
  | 0, mem, q, d => (.ok apology, mem, q, d)
  | fuel + 1, mem, q, d =>
    let msg := model mem
    match msg.tool_calls with
    | (fname, argStr) :: _ =>
      (match jsonLoads (argSource argStr) with
       | .error e => (.error e, mem, q + 1, d)
       | .ok args =>
         match callTool fname args with
         | .error e => (.error e, mem, q + 1, d + 1)
         | .ok rcontent =>
           runAgentLoop model callTool fuel
             (mem ++ [⟨"assistant", some fname, .str (jsonDumps args)⟩,
                      ⟨"function", some fname, rcontent⟩])
             (q + 1) (d + 1))
    | [] =>
      let ans := msg.content.getD ""
      (.ok ans, mem ++ [⟨"assistant", none, .str ans⟩], q + 1, d)

/-- run_agent (src/client.py lines 61-114): append the user query to memory,
then run the bounded think-act-observe loop with the configured maximum
number of iterations. -/
def run_agent (model : List Turn → ModelMsg)
    (callTool : String → JVal → Except String JVal)
    (max_iterations : Nat) (mem : List Turn) (user_query : String) :
    Except String String × List Turn × Nat × Nat :=
  runAgentLoop model callTool max_iterations
    (mem ++ [⟨"user", none, .str user_query⟩]) 0 0

/-- Shape of the memory entries one run_agent invocation appends after the
user turn: a sequence of assistant-call plus function-result pairs, followed
by at most one plain assistant turn. -/
def pairsThenAnswer : List Turn → Bool
  | [] => true
  | [⟨"assistant", none, _⟩] => true
  | ⟨"assistant", some _, _⟩ :: ⟨"function", some _, _⟩ :: rest => pairsThenAnswer rest
  | _ => false

/-- Helper: a list is pointwise related to its image under a map by the
graph of the mapped function. -/
theorem forall2_map_self {α β : Type} (f : α → β) :
    ∀ l : List α, List.Forall₂ (fun a b => b = f a) l (l.map f)
  | [] => List.Forall₂.nil
  | a :: t => List.Forall₂.cons rfl (forall2_map_self f t)

/-- C5: for every raw operation name, the compiled tool name replaces each
character outside the class of digits, ASCII letters and underscore with an
underscore and, when the result starts with a digit, adds the op_ guard; in
particular the raw id get/track:id compiles to the tool name get_track_id. -/
theorem sanitize_name_claim :
    (∀ name : String, ∃ core : String,
      List.Forall₂ (fun a b => b = if isWordChar a then a else '_') name.data core.data ∧
      sanitize_name name =
        (if core.data.head?.elim false Char.isDigit then "op_" ++ core else core)) ∧
    sanitize_name "get/track:id" = "get_track_id" := by
  constructor
  · intro name
    refine ⟨reSubNonWord name, ?_, ?_⟩
    · exact forall2_map_self _ name.data
    · cases h : (reSubNonWord name).data with
      | nil => simp [sanitize_name, leadingDigit, h]
      | cons c t => simp [sanitize_name, leadingDigit, h]
  · decide

/-- C6 counterexample: with no operationId and path v1 tracks id (braced) the raw
name synthesized before sanitization keeps the brace placeholder, so it is
not the claimed literal get_v1_tracks__id_; the method key is used exactly
as written, lowercase or not. -/
theorem rawName_counterexample :
    rawName none "get" "/v1/tracks/{id}" = "get_v1_tracks_{id}" ∧
    rawName none "get" "/v1/tracks/{id}" ≠ "get_v1_tracks__id_" ∧
    rawName none "GET" "/v1/tracks/{id}" = "GET_v1_tracks_{id}" := by decide

/-- C6 amended: for an operation with no operationId under the lowercase
method key get and the braced tracks path, the synthesized raw name before
sanitization keeps the braces intact around id (the method is
concatenated as written, leading and trailing slashes are stripped and the
inner slashes become underscores); the claimed literal get_v1_tracks__id_
is the name after sanitization. An uppercase method key would be kept
uppercase in the raw name. -/
theorem rawName_amended :
    rawName none "get" "/v1/tracks/{id}" = "get_v1_tracks_{id}" ∧
    sanitize_name (rawName none "get" "/v1/tracks/{id}") = "get_v1_tracks__id_" ∧
    rawName none "GET" "/v1/tracks/{id}" = "GET_v1_tracks_{id}" := by decide

/-- C1 counterexample: the URL computed by a compiled tool function at a
concrete call is the template with the placeholder replaced by the supplied
path-parameter value, not the base URL followed by the literal template. -/
theorem compiledUrl_counterexample :
    compiledUrl [("id", "4iV5W9uYEdYUVa79Axb7Rh")] "https://api.spotify.com" "/v1/tracks/{id}"
      = some "https://api.spotify.com/v1/tracks/4iV5W9uYEdYUVa79Axb7Rh" ∧
    some ("https://api.spotify.com" ++ "/v1/tracks/{id}")
      ≠ some "https://api.spotify.com/v1/tracks/4iV5W9uYEdYUVa79Axb7Rh" := by decide

/-- Helper: takeWhile runs through a prefix whose members all satisfy the
predicate. -/
theorem takeWhile_append_pos {α : Type} (p : α → Bool) (l1 l2 : List α)
    (h : ∀ c ∈ l1, p c = true) :
    (l1 ++ l2).takeWhile p = l1 ++ l2.takeWhile p := by
  induction l1 with
  | nil => rfl
  | cons a t ih =>
    have ha : p a = true := h a (by simp)
    simp [List.takeWhile_cons, ha, ih (fun c hc => h c (by simp [hc]))]

/-- Helper: dropWhile skips a prefix whose members all satisfy the
predicate. -/
theorem dropWhile_append_pos {α : Type} (p : α → Bool) (l1 l2 : List α)
    (h : ∀ c ∈ l1, p c = true) :
    (l1 ++ l2).dropWhile p = l2.dropWhile p := by
  induction l1 with
  | nil => rfl
  | cons a t ih =>
    have ha : p a = true := h a (by simp)
    simp [List.dropWhile_cons, ha, ih (fun c hc => h c (by simp [hc]))]

/-- Helper: the f-string scanner copies one non-brace character. -/
theorem fstringChars_plain (env : List (String × String)) (fuel : Nat) (c : Char)
    (cs : List Char) (hc : c ≠ '\x7b') :
    fstringChars env (fuel + 1) (c :: cs)
      = (fstringChars env fuel cs).map (fun t => c :: t) := by
  simp [fstringChars, hc]

/-- Helper: the f-string scanner copies a whole brace-free literal run. -/
theorem fstringChars_lit (env : List (String × String)) :
    ∀ (pre : List Char), (∀ c ∈ pre, c ≠ '\x7b') →
      ∀ (fuel : Nat) (rest : List Char),
        fstringChars env (pre.length + fuel) (pre ++ rest)
          = (fstringChars env fuel rest).map (fun t => pre ++ t) := by
  intro pre
  induction pre with
  | nil =>
    intro _ fuel rest
    simp only [List.length_nil, Nat.zero_add, List.nil_append]
    cases h : fstringChars env fuel rest <;> simp [h]
  | cons a t ih =>
    intro hpre fuel rest
    have ha : a ≠ '\x7b' := hpre a (by simp)
    have hlen : (a :: t).length + fuel = (t.length + fuel) + 1 := by simp; omega
    rw [List.cons_append, hlen, fstringChars_plain env _ a _ ha,
      ih (fun c hc => hpre c (by simp [hc])) fuel rest]
    cases h : fstringChars env fuel rest <;> simp [h]

/-- Helper: the f-string scanner replaces one placeholder with the value
bound to its name in the argument environment. -/
theorem fstringChars_param (env : List (String × String)) (fuel : Nat)
    (nmc : List Char) (v : String) (rest : List Char)
    (hnm : ∀ c ∈ nmc, c ≠ '\x7d')
    (hv : env.lookup (String.mk nmc) = some v) :
    fstringChars env (fuel + 1) ('\x7b' :: (nmc ++ '\x7d' :: rest))
      = (fstringChars env fuel rest).map (fun t => v.data ++ t) := by
  have hall : ∀ c ∈ nmc, (c != '\x7d') = true := fun c hc => by simp [hnm c hc]
  have htake : (nmc ++ '\x7d' :: rest).takeWhile (fun x => x != '\x7d') = nmc := by
    rw [takeWhile_append_pos _ _ _ hall]
    simp [List.takeWhile_cons]
  have hdrop : (nmc ++ '\x7d' :: rest).dropWhile (fun x => x != '\x7d') = '\x7d' :: rest := by
    rw [dropWhile_append_pos _ _ _ hall]
    simp [List.dropWhile_cons]
  simp [fstringChars, htake, hdrop, hv]

/-- Helper: a template never needs more scanning steps than it has
characters. -/
theorem tmplFuel_le_length : ∀ ps : List TmplPiece, tmplFuel ps ≤ (tmplChars ps).length := by
  intro ps
  induction ps with
  | nil => simp [tmplFuel, tmplChars]
  | cons p ps ih =>
    cases p with
    | lit l =>
      simp [tmplFuel, tmplChars]
      omega
    | param nm =>
      simp [tmplFuel, tmplChars]
      omega

/-- Helper: scanning a well-formed template whose placeholders are all
bound yields exactly the substituted template, for any continuation. -/
theorem fstringChars_tmpl (env : List (String × String)) :
    ∀ (ps : List TmplPiece), tmplWF ps = true →
      ∀ (out : List Char), tmplSubst env ps = some out →
        ∀ (fuel : Nat) (rest : List Char),
          fstringChars env (tmplFuel ps + fuel) (tmplChars ps ++ rest)
            = (fstringChars env fuel rest).map (fun t => out ++ t) := by
  intro ps
  induction ps with
  | nil =>
    intro _ out hout fuel rest
    simp [tmplSubst] at hout
    subst hout
    simp only [tmplFuel, tmplChars, Nat.zero_add, List.nil_append]
    cases h : fstringChars env fuel rest <;> simp [h]
  | cons p ps ih =>
    cases p with
    | lit l =>
      intro hwf out hout fuel rest
      rw [tmplWF, Bool.and_eq_true] at hwf
      obtain ⟨hl, hwf2⟩ := hwf
      rw [tmplSubst, Option.map_eq_some'] at hout
      obtain ⟨out2, hout2, hout3⟩ := hout
      subst hout3
      have hlall : ∀ c ∈ l, c ≠ '\x7b' := by
        intro c hc
        simpa using List.all_eq_true.mp hl c hc
      have hfuel : tmplFuel (TmplPiece.lit l :: ps) + fuel
          = l.length + (tmplFuel ps + fuel) := by
        rw [tmplFuel]; omega
      have hchars : tmplChars (TmplPiece.lit l :: ps) ++ rest
          = l ++ (tmplChars ps ++ rest) := by
        rw [tmplChars, List.append_assoc]
      rw [hchars, hfuel, fstringChars_lit env l hlall (tmplFuel ps + fuel) (tmplChars ps ++ rest),
        ih hwf2 out2 hout2 fuel rest]
      cases h : fstringChars env fuel rest <;> simp [h, List.append_assoc]
    | param nm =>
      intro hwf out hout fuel rest
      rw [tmplWF, Bool.and_eq_true] at hwf
      obtain ⟨hn, hwf2⟩ := hwf
      rw [tmplSubst] at hout
      cases hlk : env.lookup nm with
      | none => rw [hlk] at hout; exact absurd hout (by simp)
      | some v =>
        rw [hlk, Option.map_eq_some'] at hout
        obtain ⟨out2, hout2, hout3⟩ := hout
        subst hout3
        have hnall : ∀ c ∈ nm.data, c ≠ '\x7d' := by
          intro c hc
          simpa using List.all_eq_true.mp hn c hc
        have hfuel : tmplFuel (TmplPiece.param nm :: ps) + fuel
            = (tmplFuel ps + fuel) + 1 := by
          rw [tmplFuel]; omega
        have hchars : tmplChars (TmplPiece.param nm :: ps) ++ rest
            = '\x7b' :: (nm.data ++ '\x7d' :: (tmplChars ps ++ rest)) := by
          rw [tmplChars]
          simp [List.append_assoc]
        rw [hchars, hfuel,
          fstringChars_param env (tmplFuel ps + fuel) nm.data v (tmplChars ps ++ rest) hnall hlk,
          ih hwf2 out2 hout2 fuel rest]
        cases h : fstringChars env fuel rest <;> simp [h, List.append_assoc]

/-- C1 amended: for every compiled operation - any API base URL free of
placeholder braces, any path template decomposed into brace-free literal
runs and named placeholders, and any argument environment that binds every
placeholder - the URL built by the generated request line is the base URL
concatenated with the template in which each brace placeholder has been
replaced, at call time, by the value of the identically named
path-parameter argument. -/
theorem compiledUrl_substitutes (base_url : String) (ps : List TmplPiece)
    (env : List (String × String)) (out : List Char)
    (hbase : ∀ c ∈ base_url.data, c ≠ '\x7b')
    (hwf : tmplWF ps = true)
    (hsub : tmplSubst env ps = some out) :
    compiledUrl env base_url (String.mk (tmplChars ps))
      = some (base_url ++ String.mk out) := by
  have hdata : (base_url ++ String.mk (tmplChars ps)).data
      = base_url.data ++ tmplChars ps := rfl
  have hwf0 : tmplWF (TmplPiece.lit base_url.data :: ps) = true := by
    rw [tmplWF, Bool.and_eq_true]
    refine ⟨List.all_eq_true.mpr ?_, hwf⟩
    intro c hc
    simpa using hbase c hc
  have hsub0 : tmplSubst env (TmplPiece.lit base_url.data :: ps)
      = some (base_url.data ++ out) := by
    rw [tmplSubst, hsub]
    rfl
  have hchars0 : tmplChars (TmplPiece.lit base_url.data :: ps)
      = base_url.data ++ tmplChars ps := rfl
  have hfle := tmplFuel_le_length (TmplPiece.lit base_url.data :: ps)
  have hlen : (base_url ++ String.mk (tmplChars ps)).length
      = (base_url.data ++ tmplChars ps).length :=
    congrArg List.length hdata
  have hle : tmplFuel (TmplPiece.lit base_url.data :: ps)
      ≤ (base_url ++ String.mk (tmplChars ps)).length + 1 := by
    rw [hlen]
    rw [hchars0] at hfle
    omega
  have hslack : tmplFuel (TmplPiece.lit base_url.data :: ps)
      + ((base_url ++ String.mk (tmplChars ps)).length + 1
          - tmplFuel (TmplPiece.lit base_url.data :: ps))
      = (base_url ++ String.mk (tmplChars ps)).length + 1 := by omega
  have hmain := fstringChars_tmpl env (TmplPiece.lit base_url.data :: ps) hwf0
    (base_url.data ++ out) hsub0
    ((base_url ++ String.mk (tmplChars ps)).length + 1
      - tmplFuel (TmplPiece.lit base_url.data :: ps)) []
  rw [List.append_nil, hslack, hchars0] at hmain
  have hnil : fstringChars env
      ((base_url ++ String.mk (tmplChars ps)).length + 1
        - tmplFuel (TmplPiece.lit base_url.data :: ps)) [] = some [] := by
    cases h : (base_url ++ String.mk (tmplChars ps)).length + 1
        - tmplFuel (TmplPiece.lit base_url.data :: ps) <;> rfl
  rw [hnil] at hmain
  simp at hmain
  unfold compiledUrl
  rw [hdata, hlen, List.length_append]
  rw [show base_url.data.length = base_url.length from rfl]
  rw [hmain]
  rfl

/-- Witness for the substitution theorem at the track-lookup operation:
the template renders as the braced id path and the compiled URL carries
the supplied track id in place of the placeholder. -/
theorem compiledUrl_substitutes_witness :
    compiledUrl [("id", "4iV5W9uYEdYUVa79Axb7Rh")] "https://api.spotify.com"
      (String.mk (tmplChars [TmplPiece.lit "/v1/tracks/".data, TmplPiece.param "id"]))
      = some ("https://api.spotify.com"
          ++ String.mk "/v1/tracks/4iV5W9uYEdYUVa79Axb7Rh".data) :=
  compiledUrl_substitutes "https://api.spotify.com"
    [TmplPiece.lit "/v1/tracks/".data, TmplPiece.param "id"]
    [("id", "4iV5W9uYEdYUVa79Axb7Rh")] "/v1/tracks/4iV5W9uYEdYUVa79Axb7Rh".data
    (by decide) (by decide) (by decide)

/-- C2 counterexample: a response with status 404 and an empty body has an
empty response body, yet the invoker returns the error envelope, not the
claimed success envelope: raise_for_status runs before the empty-body
check, and since the attached 4xx response is falsy the handler renders the
HTTPError's own message. -/
theorem invoke_404_empty_counterexample :
    invoke (.ok ⟨404, "", "Not Found", "https://api.spotify.com/v1/me/player",
        .error "Expecting value"⟩) ≠ successMarker ∧
    (invoke (.ok ⟨404, "", "Not Found", "https://api.spotify.com/v1/me/player",
        .error "Expecting value"⟩)).isError = true ∧
    invoke (.ok ⟨404, "", "Not Found", "https://api.spotify.com/v1/me/player",
        .error "Expecting value"⟩)
      = errEnvelope
          "404 Client Error: Not Found for url: https://api.spotify.com/v1/me/player" := by
  decide

/-- C2 amended: among responses that pass raise_for_status (status outside
400 to 599), status 201, status 204, or an empty body yield the literal
success envelope regardless of body content, and any other such response
whose body decodes as JSON yields the decoded body with isError false. -/
theorem invoke_success_classification (r : HResp)
    (hok : raisesForStatus r.status = false) :
    ((r.status = 201 ∨ r.status = 204 ∨ r.text = "") → invoke (.ok r) = successMarker) ∧
    ((¬(r.status = 201 ∨ r.status = 204 ∨ r.text = "")) → ∀ j, r.jsonVal = .ok j →
      invoke (.ok r) = ⟨false, j⟩) := by
  constructor
  · intro hc
    simp [invoke, hok, hc]
  · intro hc j hj
    simp [invoke, hok, hc, hj]

/-- Witness for the amended success classification: a 204 with a body maps
to the success envelope; a 200 with JSON body maps to the decoded body. -/
theorem invoke_success_classification_witness :
    invoke (.ok ⟨204, "ignored body", "No Content", "u", .error "x"⟩) = successMarker ∧
    invoke (.ok ⟨200, "[1]", "OK", "u", .ok (.arr [.num 1])⟩) = ⟨false, .arr [.num 1]⟩ :=
  ⟨(invoke_success_classification ⟨204, "ignored body", "No Content", "u", .error "x"⟩ rfl).1
      (Or.inr (Or.inl rfl)),
   (invoke_success_classification ⟨200, "[1]", "OK", "u", .ok (.arr [.num 1])⟩ rfl).2
      (by decide) (.arr [.num 1]) rfl⟩

/-- C3: the code cannot produce the claimed HTTP diagnostic for HTTP
errors. The handler comment at src/server.py line 100 says it pulls out
status and body, but a requests response is falsy exactly when its status
is 4xx or 5xx, so the and-chain at line 101 leaves status falsy and the
test at line 103 selects the str(e) fallback for every error raised by
raise_for_status: at the claimed 404 input the envelope text is the
HTTPError message, never HTTP 404 followed by the body, and the same holds
for every 404 and 503 response whatever its body; an exception carrying no
response falls back to its own string form as the claim says. -/
theorem invoke_http_diagnostic_bug :
    invoke (.ok ⟨404, "\x7b\"error\": \"not found\"\x7d", "Not Found",
        "https://api.spotify.com/v1/tracks/x", .error "x"⟩)
      = errEnvelope "404 Client Error: Not Found for url: https://api.spotify.com/v1/tracks/x" ∧
    invoke (.ok ⟨404, "\x7b\"error\": \"not found\"\x7d", "Not Found",
        "https://api.spotify.com/v1/tracks/x", .error "x"⟩)
      ≠ errEnvelope "HTTP 404: \x7b\"error\": \"not found\"\x7d" ∧
    (∀ (text reason url : String) (jv : Except String JVal),
      invoke (.ok ⟨404, text, reason, url, jv⟩)
        = errEnvelope ("404 Client Error: " ++ reason ++ " for url: " ++ url)) ∧
    (∀ (text reason url : String) (jv : Except String JVal),
      invoke (.ok ⟨503, text, reason, url, jv⟩)
        = errEnvelope ("503 Server Error: " ++ reason ++ " for url: " ++ url)) ∧
    (∀ msg : String, invoke (.exn none msg) = errEnvelope msg) := by
  refine ⟨by decide, by decide, ?_, ?_, fun msg => rfl⟩
  · intro text reason url jv
    simp [invoke, raisesForStatus, errorText, responseTruthy, httpErrorMsg]
    rfl
  · intro text reason url jv
    simp [invoke, raisesForStatus, errorText, responseTruthy, httpErrorMsg]
    rfl

/-- C7: two operations whose names collide after sanitization are both
accepted by the registration loop; the built registry holds a single entry
for the collided name, the later operation having silently replaced the
earlier one, and no build-time error is raised. -/
theorem registerAll_collision_overwrites :
    sanitize_name "get/track" = sanitize_name "get:track" ∧
    registerAll [⟨some "get/track", "get", "/t"⟩, ⟨some "get:track", "get", "/t2"⟩]
      = [("get_track", ⟨some "get:track", "get", "/t2"⟩)] := by decide

/-- Helper for the exhaustion claim: when the model requests a parseable
tool call at every memory state and every dispatch succeeds, the loop burns
its whole budget, one model query and one tool dispatch per level, appends
two turns per level, and ends with the apology. -/
theorem runAgentLoop_exhausts (model : List Turn → ModelMsg)
    (callTool : String → JVal → Except String JVal)
    (H1 : ∀ mem, ∃ nm a rest args, (model mem).tool_calls = (nm, a) :: rest ∧
      jsonLoads (argSource a) = .ok args)
    (H2 : ∀ nm args, ∃ r, callTool nm args = .ok r) :
    ∀ (fuel : Nat) (mem : List Turn) (q d : Nat),
      ∃ tail, runAgentLoop model callTool fuel mem q d
          = (.ok apology, mem ++ tail, q + fuel, d + fuel) ∧
        tail.length = 2 * fuel := by
  intro fuel
  induction fuel with
  | zero =>
    intro mem q d
    exact ⟨[], by simp [runAgentLoop], rfl⟩
  | succ n ih =>
    intro mem q d
    obtain ⟨nm, a, rest, args, hc, hargs⟩ := H1 mem
    obtain ⟨r, hr⟩ := H2 nm args
    obtain ⟨tail, htail, hlen⟩ :=
      ih (mem ++ [⟨"assistant", some nm, .str (jsonDumps args)⟩,
                  ⟨"function", some nm, r⟩]) (q + 1) (d + 1)
    refine ⟨⟨"assistant", some nm, .str (jsonDumps args)⟩ ::
            ⟨"function", some nm, r⟩ :: tail, ?_, ?_⟩
    · simp only [runAgentLoop, hc, hargs, hr]
      rw [htail]
      simp [List.append_assoc]
      omega
    · simp [hlen]
      omega

/-- C4: with the default budget of five iterations, a model that requests a
parseable tool call on every turn while the dispatcher keeps returning
results drives run_agent to the fixed apology string after exactly five
model queries and five tool dispatches, and the ten memory entries
accumulated beyond the user turn are kept, with no rollback. -/
theorem run_agent_exhausts_budget (model : List Turn → ModelMsg)
    (callTool : String → JVal → Except String JVal)
    (H1 : ∀ mem, ∃ nm a rest args, (model mem).tool_calls = (nm, a) :: rest ∧
      jsonLoads (argSource a) = .ok args)
    (H2 : ∀ nm args, ∃ r, callTool nm args = .ok r)
    (mem : List Turn) (query : String) :
    ∃ tail, run_agent model callTool 5 mem query
        = (.ok "I\x27m sorry, I couldn\x27t complete the request.",
           (mem ++ [⟨"user", none, .str query⟩]) ++ tail, 5, 5) ∧
      tail.length = 10 := by
  obtain ⟨tail, h, hlen⟩ :=
    runAgentLoop_exhausts model callTool H1 H2 5 (mem ++ [⟨"user", none, .str query⟩]) 0 0
  refine ⟨tail, ?_, by omega⟩
  simpa [run_agent, apology] using h

/-- Witness for the exhaustion theorem at a concrete model that always
requests the same call with empty-object arguments. -/
theorem run_agent_exhausts_budget_witness :
    ∃ tail, run_agent (fun _ => ⟨[("t", some "\x7b\x7d")], none⟩)
        (fun _ _ => .ok (.str "ok")) 5 [] "hi"
        = (.ok "I\x27m sorry, I couldn\x27t complete the request.",
           ([] ++ [⟨"user", none, .str "hi"⟩]) ++ tail, 5, 5) ∧
      tail.length = 10 :=
  run_agent_exhausts_budget _ _
    (fun mem => ⟨"t", some "\x7b\x7d", [], .obj [], rfl, rfl⟩)
    (fun nm args => ⟨.str "ok", rfl⟩) [] "hi"

/-- C8 counterexample: an arguments string that is present but not valid
JSON, namely the empty string, does not propagate a parse failure: Python
replaces any falsy arguments value with the empty-object document, so the
dispatch proceeds with the empty argument set. -/
theorem runAgent_empty_args_counterexample :
    jsonLoads "" = .error "Expecting value" ∧
    runAgentLoop (fun _ => ⟨[("t", some "")], none⟩) (fun _ _ => .ok (.str "ok")) 1 [] 0 0
      = (.ok apology,
         [⟨"assistant", some "t", .str "\x7b\x7d"⟩,
          ⟨"function", some "t", .str "ok"⟩], 1, 1) :=
  ⟨rfl, rfl⟩

/-- C8 amended: an absent or empty arguments string defaults to the empty
argument set and the dispatch proceeds with it; an arguments string that is
present, non-empty and not valid JSON is a parse failure that propagates out
of run_agent, with no dispatch made and memory unchanged at that level. -/
theorem runAgent_args_handling :
    (∀ model callTool fuel mem q d nm a rest r,
      (model mem).tool_calls = (nm, a) :: rest →
      (a = none ∨ a = some "") →
      callTool nm (.obj []) = .ok r →
      runAgentLoop model callTool (fuel + 1) mem q d
        = runAgentLoop model callTool fuel
            (mem ++ [⟨"assistant", some nm, .str "\x7b\x7d"⟩,
                     ⟨"function", some nm, r⟩]) (q + 1) (d + 1)) ∧
    (∀ model callTool fuel mem q d nm s rest e,
      (model mem).tool_calls = (nm, some s) :: rest →
      s ≠ "" →
      jsonLoads s = .error e →
      runAgentLoop model callTool (fuel + 1) mem q d = (.error e, mem, q + 1, d)) := by
  constructor
  · intro model callTool fuel mem q d nm a rest r hc ha hr
    have hsrc : argSource a = "\x7b\x7d" := by
      rcases ha with h | h <;> simp [argSource, h]
    simp only [runAgentLoop, hc, hsrc]
    have hload : jsonLoads "\x7b\x7d" = .ok (.obj []) := rfl
    simp only [hload, hr]
    rfl
  · intro model callTool fuel mem q d nm s rest e hc hs herr
    have hsrc : argSource (some s) = s := by simp [argSource, hs]
    simp only [runAgentLoop, hc, hsrc, herr]

/-- Witness for the argument handling: an absent arguments string leads to a
dispatch with the serialized empty object recorded, and the non-JSON string
propagates its parse failure. -/
theorem runAgent_args_handling_witness :
    runAgentLoop (fun _ => ⟨[("t", none)], none⟩) (fun _ _ => .ok (.str "ok")) 1 [] 0 0
      = runAgentLoop (fun _ => ⟨[("t", none)], none⟩) (fun _ _ => .ok (.str "ok")) 0
          ([] ++ [⟨"assistant", some "t", .str "\x7b\x7d"⟩,
                  ⟨"function", some "t", .str "ok"⟩]) 1 1 ∧
    runAgentLoop (fun _ => ⟨[("t", some "not json")], none⟩)
        (fun _ _ => .ok (.str "ok")) 1 [] 0 0
      = (.error "Expecting value", [], 1, 0) :=
  ⟨runAgent_args_handling.1 _ _ 0 [] 0 0 "t" none [] (.str "ok") rfl (Or.inl rfl) rfl,
   runAgent_args_handling.2 _ _ 0 [] 0 0 "t" "not json" [] "Expecting value" rfl
     (by decide) rfl⟩

/-- Helper: whatever outcome one run of the loop reaches, the memory it
returns is the memory it started from with pairs of call-and-observation
turns appended, closed by at most one final assistant turn. -/
theorem runAgentLoop_append_shape (model : List Turn → ModelMsg)
    (callTool : String → JVal → Except String JVal) :
    ∀ (fuel : Nat) (mem : List Turn) (q d : Nat),
      ∃ tail, (runAgentLoop model callTool fuel mem q d).2.1 = mem ++ tail ∧
        pairsThenAnswer tail = true := by
  intro fuel
  induction fuel with
  | zero =>
    intro mem q d
    exact ⟨[], by simp [runAgentLoop], rfl⟩
  | succ n ih =>
    intro mem q d
    cases hc : (model mem).tool_calls with
    | nil =>
      refine ⟨[⟨"assistant", none, .str ((model mem).content.getD "")⟩], ?_, rfl⟩
      simp [runAgentLoop, hc]
    | cons hd rest =>
      obtain ⟨nm, a⟩ := hd
      cases hargs : jsonLoads (argSource a) with
      | error e =>
        exact ⟨[], by simp [runAgentLoop, hc, hargs], rfl⟩
      | ok args =>
        cases hr : callTool nm args with
        | error e =>
          exact ⟨[], by simp [runAgentLoop, hc, hargs, hr], rfl⟩
        | ok r =>
          obtain ⟨tail, htail, hshape⟩ :=
            ih (mem ++ [⟨"assistant", some nm, .str (jsonDumps args)⟩,
                        ⟨"function", some nm, r⟩]) (q + 1) (d + 1)
          refine ⟨⟨"assistant", some nm, .str (jsonDumps args)⟩ ::
                  ⟨"function", some nm, r⟩ :: tail, ?_, ?_⟩
          · simp only [runAgentLoop, hc, hargs, hr]
            rw [htail]
            simp [List.append_assoc]
          · simpa [pairsThenAnswer] using hshape

/-- C9: conversation memory only grows: connect appends the system prompt,
which is the first entry of a fresh session, and one run_agent invocation
returns a memory equal to the old memory followed by the user turn and then,
per serviced tool call, an assistant-role call record followed by a
function-role observation, closed by at most one final assistant turn;
nothing is modified, removed or reordered. -/
theorem memory_append_only :
    (∀ mem : List Turn, connectMemory mem = mem ++ [⟨"system", none, .str systemPrompt⟩]) ∧
    connectMemory [] = [⟨"system", none, .str systemPrompt⟩] ∧
    (∀ model callTool maxIter mem q,
      ∃ tail,
        (run_agent model callTool maxIter mem q).2.1
          = mem ++ ⟨"user", none, .str q⟩ :: tail ∧
        pairsThenAnswer tail = true) := by
  refine ⟨fun mem => rfl, rfl, ?_⟩
  intro model callTool maxIter mem q
  obtain ⟨tail, h, hs⟩ :=
    runAgentLoop_append_shape model callTool maxIter (mem ++ [⟨"user", none, .str q⟩]) 0 0
  exact ⟨tail, by simpa [run_agent, List.append_assoc] using h, hs⟩

/-- C10: when the model answers with no tool calls and no content, run_agent
appends an assistant turn whose content is the empty string and returns the
empty string, after one model query and no tool dispatch; it neither raises
nor returns a null answer. -/
theorem run_agent_none_content (model : List Turn → ModelMsg)
    (callTool : String → JVal → Except String JVal)
    (n : Nat) (mem : List Turn) (q : String)
    (h1 : (model (mem ++ [⟨"user", none, .str q⟩])).tool_calls = [])
    (h2 : (model (mem ++ [⟨"user", none, .str q⟩])).content = none) :
    run_agent model callTool (n + 1) mem q
      = (.ok "", mem ++ [⟨"user", none, .str q⟩, ⟨"assistant", none, .str ""⟩], 1, 0) := by
  simp [run_agent, runAgentLoop, h1, h2]

/-- Witness for the empty-answer theorem at a model that immediately returns
a contentless message. -/
theorem run_agent_none_content_witness :
    run_agent (fun _ => ⟨[], none⟩) (fun _ _ => .ok (.str "ok")) 5 [] "hi"
      = (.ok "", [⟨"user", none, .str "hi"⟩, ⟨"assistant", none, .str ""⟩], 1, 0) :=
  run_agent_none_content _ _ 4 [] "hi" rfl rfl
